import Mathlib

/-!
Shallow embedding of the CouchDB editing-session layer (`session.py`):
the `Session` identity cache and tracking sets, the mutation-tracking
wrapper classes, the view-row wrapper, and the flush protocol, together
with a model of the external document store they talk to.

Wrapped in-memory document instances are modelled as references (`Nat`)
into an explicit heap, so "same in-memory instance" is reference equality.
-/

set_option autoImplicit false

namespace CouchSession

/-- JSON-like field values carried by documents. -/
inductive Val where
  | str : String → Val
  | int : Int → Val
  | bool : Bool → Val
  | obj : List (String × Val) → Val
  | arr : List Val → Val

/-- A document is a Python dict from field name to value. -/
abbrev Doc := List (String × Val)

section Assoc

variable {α : Type} {β : Type} [DecidableEq α]

/-- Lookup in an association list (Python `dict.get` / `dict.__getitem__`). -/
def assocFind (k : α) : List (α × β) → Option β
  | [] => none
  | (k', v) :: rest => if k' = k then some v else assocFind k rest

/-- Key-preserving insert/replace (Python `dict.__setitem__`). -/
def assocSet (l : List (α × β)) (k : α) (v : β) : List (α × β) :=
  match l with
  | [] => [(k, v)]
  | (k', v') :: rest => if k' = k then (k, v) :: rest else (k', v') :: assocSet rest k v

/-- Key removal (Python `del dict[k]`; removes the first binding). -/
def assocErase (l : List (α × β)) (k : α) : List (α × β) :=
  match l with
  | [] => []
  | (k', v') :: rest => if k' = k then rest else (k', v') :: assocErase rest k

theorem assocFind_set_self (l : List (α × β)) (k : α) (v : β) :
    assocFind k (assocSet l k v) = some v := by
  induction l with
  | nil => simp [assocSet, assocFind]
  | cons p rest ih =>
    obtain ⟨k', v'⟩ := p
    by_cases h : k' = k
    · simp [assocSet, h, assocFind]
    · simp [assocSet, h, assocFind, ih]

theorem assocFind_set_ne (l : List (α × β)) (k k' : α) (v : β) (h : k ≠ k') :
    assocFind k' (assocSet l k v) = assocFind k' l := by
  induction l with
  | nil => simp [assocSet, assocFind, h]
  | cons p rest ih =>
    obtain ⟨k0, v0⟩ := p
    by_cases h0 : k0 = k
    · subst h0
      simp [assocSet, assocFind, h]
    · simp only [assocSet, if_neg h0, assocFind]
      by_cases h1 : k0 = k'
      · simp [h1]
      · simp [h1, ih]

theorem assocFind_erase_ne (l : List (α × β)) (k k' : α) (h : k ≠ k') :
    assocFind k' (assocErase l k) = assocFind k' l := by
  induction l with
  | nil => simp [assocErase]
  | cons p rest ih =>
    obtain ⟨k0, v0⟩ := p
    by_cases h0 : k0 = k
    · subst h0
      have h' : k0 ≠ k' := h
      simp [assocErase, assocFind, h']
    · simp only [assocErase, if_neg h0, assocFind]
      by_cases h1 : k0 = k'
      · simp [h1]
      · simp [h1, ih]

theorem assocFind_mem (l : List (α × β)) (k : α) (v : β)
    (h : assocFind k l = some v) : (k, v) ∈ l := by
  induction l with
  | nil => simp [assocFind] at h
  | cons p rest ih =>
    obtain ⟨k0, v0⟩ := p
    by_cases h0 : k0 = k
    · rw [show assocFind k ((k0, v0) :: rest) = if k0 = k then some v0 else assocFind k rest from rfl,
        if_pos h0] at h
      injection h with hv
      subst hv
      subst h0
      exact List.mem_cons_self _ _
    · rw [show assocFind k ((k0, v0) :: rest) = if k0 = k then some v0 else assocFind k rest from rfl,
        if_neg h0] at h
      exact List.mem_cons_of_mem _ (ih h)

end Assoc

/-- Field lookup on a document (`doc[k]`, as an `Option`). -/
def getField (d : Doc) (k : String) : Option Val :=
  assocFind k d

/-- Field assignment on a document (`doc[k] = v`). -/
def setField (d : Doc) (k : String) (v : Val) : Doc :=
  assocSet d k v

/-- Python `k in doc`. -/
def hasField (d : Doc) (k : String) : Bool :=
  (getField d k).isSome

/-- The document's `_id` field, when it is a string. -/
def docId (d : Doc) : Option String :=
  match getField d "_id" with
  | some (Val.str s) => some s
  | _ => none

/-- The document's `_rev` field, when it is a string. -/
def docRev (d : Doc) : Option String :=
  match getField d "_rev" with
  | some (Val.str s) => some s
  | _ => none

/-- Python `set.add` on an id set kept as a duplicate-free list. -/
def addToSet (l : List String) (x : String) : List String :=
  if l.contains x then l else l ++ [x]

/-- A call made to the external store, recorded for observability. -/
inductive StoreCall where
  | getCall : String → StoreCall
  | updateCall : List Doc → StoreCall

/-- Modelled from the spec (§6): the external document store, an opaque
collaborator exposing `get` and batched `update`.  `failPlan n` makes the
`n`-th `update` call raise the given store error, so store failures during
`flush` can be expressed.  `log` records every call the session makes. -/
structure Store where
  docs : List (String × Doc)
  nextRev : Nat
  log : List StoreCall
  failPlan : Nat → Option Nat

/-- Number of `update` calls made so far. -/
def updCalls (log : List StoreCall) : Nat :=
  (log.filter fun c => match c with | .updateCall _ => true | _ => false).length

/-- Modelled from the spec (§6): `store.get id` returns the document or
nothing; the call is logged. -/
def Store.get (db : Store) (id : String) : Option Doc × Store :=
  (assocFind id db.docs, { db with log := db.log ++ [.getCall id] })

/-- Modelled from the spec (§6): apply one batch of update records in order.
A record carrying `_deleted` removes the id; any other record is upserted
and assigned a fresh revision token.  One `{id, revision}` response per
record. -/
def applyRecs : List (String × Doc) → Nat → List Doc →
    List (String × Doc) × Nat × List (String × String)
  | docs, nextRev, [] => (docs, nextRev, [])
  | docs, nextRev, rec :: rest =>
    let id := (docId rec).getD ""
    let rev := "r" ++ toString nextRev
    if hasField rec "_deleted" then
      let (docs', nr', resps) := applyRecs (assocErase docs id) (nextRev + 1) rest
      (docs', nr', (id, rev) :: resps)
    else
      let stored := setField rec "_rev" (Val.str rev)
      let (docs', nr', resps) := applyRecs (assocSet docs id stored) (nextRev + 1) rest
      (docs', nr', (id, rev) :: resps)

/-- Modelled from the spec (§6): the store's batched `update`.  The call is
always logged; if the failure plan marks this call it raises the planned
store error and the store's contents are untouched. -/
def Store.update (db : Store) (recs : List Doc) :
    Except Nat (List (String × String)) × Store :=
  let logged : Store := { db with log := db.log ++ [.updateCall recs] }
  match db.failPlan (updCalls db.log) with
  | some e => (.error e, logged)
  | none =>
    let (docs', nr', resps) := applyRecs db.docs db.nextRev recs
    (.ok resps, { logged with docs := docs', nextRev := nr' })

/-- Errors the session layer can raise: Python `KeyError`,
`couchdb.ResourceNotFound`, or an error propagated from the store. -/
inductive PyErr where
  | keyError : PyErr
  | resourceNotFound : PyErr
  | storeErr : Nat → PyErr
deriving DecidableEq

/-- What `Session.get` returns: Python `None`, a wrapped document
instance (a heap reference), or a caller-supplied default sentinel. -/
inductive GetResult where
  | pynone : GetResult
  | docRef : Nat → GetResult
  | other : Nat → GetResult
deriving DecidableEq

/-- The session's mutable state: `heap` holds the live wrapped document
instances (keyed by reference), `cache` is `Session._cache` (id ↦ wrapped
instance), and `created`/`changed`/`deleted` are the tracking structures.
`nextUuid` models `uuid.uuid4()` freshness for `create` without an id. -/
structure SessionState where
  nextRef : Nat
  heap : List (Nat × Doc)
  cache : List (String × Nat)
  created : List String
  changed : List String
  deleted : List (String × String)
  nextUuid : Nat

/-- The session with empty cache and tracking sets (`Session.__init__`). -/
def emptySession : SessionState :=
  { nextRef := 0, heap := [], cache := [], created := [], changed := [],
    deleted := [], nextUuid := 0 }

/-- `Session._cached`: wrap the document (allocating a fresh in-memory
instance) and cache it under its own `_id`.  `None` is the `KeyError`
raised when the document has no `_id`. -/
def Session.cached (s : SessionState) (doc : Doc) : Option (Nat × SessionState) :=
  match docId doc with
  | none => none
  | some id =>
    let r := s.nextRef
    some (r, { s with
      nextRef := r + 1,
      heap := assocSet s.heap r doc,
      cache := assocSet s.cache id r })

/-- The `modified` callback created inside `Session._cached`: reads the
wrapped document's current `_id` and adds it to `_changed`.  The fallthrough
branches are unreachable for references handed out by the session. -/
def Session.modified (s : SessionState) (r : Nat) : SessionState :=
  match assocFind r s.heap with
  | none => s
  | some d =>
    match docId d with
    | none => s
    | some id => { s with changed := addToSet s.changed id }

/-- `Session.create`: deep-copy the data, assign a fresh id when `_id` is
absent, record the id in `_created`, cache a wrapped copy, return the id.
`error keyError` covers a non-string `_id` value (ids are modelled as
strings). -/
def Session.create (s : SessionState) (data : Doc) : Except PyErr (String × SessionState) :=
  let doc := if hasField data "_id" then data
             else setField data "_id" (Val.str ("uuid-" ++ toString s.nextUuid))
  let s1 := if hasField data "_id" then s else { s with nextUuid := s.nextUuid + 1 }
  match docId doc with
  | none => .error .keyError
  | some id =>
    let s2 := { s1 with created := addToSet s1.created id }
    match Session.cached s2 doc with
    | none => .error .keyError
    | some (_, s3) => .ok (id, s3)

/-- `Session.delete`: a still-`created` id is dropped from `_created` and
evicted from the cache; otherwise the id leaves `_changed` and enters
`_deleted` paired with the document's own `_rev` (whose absence raises
`KeyError`). -/
def Session.delete (s : SessionState) (r : Nat) : Except PyErr SessionState :=
  match assocFind r s.heap with
  | none => .error .keyError
  | some doc =>
    match docId doc with
    | none => .error .keyError
    | some id =>
      if s.created.contains id then
        if (assocFind id s.cache).isSome then
          .ok { s with created := s.created.erase id, cache := assocErase s.cache id }
        else .error .keyError
      else
        match docRev doc with
        | none => .error .keyError
        | some rev =>
          .ok { s with changed := s.changed.erase id,
                       deleted := assocSet s.deleted id rev }

/-- The cached wrapped document's own current `_id` (the `doc['_id']`
read by `get`'s tombstone check). -/
def didOf (s : SessionState) (r : Nat) : String :=
  match assocFind r s.heap with
  | some d => (docId d).getD ""
  | none => ""

/-- `Session.get`: a cache hit that is tombstoned (`_deleted` and not
`_created`) returns `None`; any other cache hit returns the cached wrapped
instance.  A cache miss asks the store; a found document is wrapped and
cached, a miss returns the caller's default. -/
def Session.get (s : SessionState) (db : Store) (id : String) (default : GetResult) :
    Except PyErr (GetResult × SessionState × Store) :=
  match assocFind id s.cache with
  | some r =>
    if (assocFind (didOf s r) s.deleted).isSome && !(s.created.contains (didOf s r)) then
      .ok (.pynone, s, db)
    else
      .ok (.docRef r, s, db)
  | none =>
    match Store.get db id with
    | (none, db') => .ok (default, s, db')
    | (some doc, db') =>
      match Session.cached s doc with
      | none => .error .keyError
      | some (r, s') => .ok (.docRef r, s', db')

/-- `Session.__getitem__`: strict indexed access; `None` from `get` becomes
`ResourceNotFound`. -/
def Session.getitem (s : SessionState) (db : Store) (id : String) :
    Except PyErr (Nat × SessionState × Store) := do
  let (res, s', db') ← Session.get s db id .pynone
  match res with
  | .docRef r => .ok (r, s', db')
  | _ => .error .resourceNotFound

/-- `Session.__setitem__`: a payload already carrying `_rev` is silently
ignored (the call returns Python `None` either way, modelled by the
`Option Val` component); otherwise a copy of the payload with `_id` set to
the key is handed to `create` and `create`'s result is discarded. -/
def Session.setitem (s : SessionState) (id : String) (content : Doc) :
    Except PyErr (Option Val × SessionState) :=
  if hasField content "_rev" then
    .ok (none, s)
  else
    match Session.create s (setField content "_id" (Val.str id)) with
    | .error e => .error e
    | .ok (_, s') => .ok (none, s')

/-- `Session.__delitem__`: resolve the document through strict indexed
access, then delete the resolved cached instance. -/
def Session.delitem (s : SessionState) (db : Store) (id : String) :
    Except PyErr (SessionState × Store) := do
  let (r, s1, db1) ← Session.getitem s db id
  let s2 ← Session.delete s1 r
  .ok (s2, db1)

/-- Eager snapshot of the tracked documents (`dict(self._cache[doc_id])`
for each id, forced by `list(...)` before any store call); `none` is the
`KeyError` raised when a tracked id is not cached. -/
def snapshotAll (s : SessionState) : List String → Option (List Doc)
  | [] => some []
  | id :: rest =>
    match assocFind id s.cache with
    | none => none
    | some r =>
      match assocFind r s.heap with
      | none => none
      | some d =>
        match snapshotAll s rest with
        | none => none
        | some ds => some (d :: ds)

/-- The post-deletion eviction loop of `flush`: drop each deleted id from
the cache unless it is also in `_created`; `false` is the `KeyError` raised
when a deleted id has no cache entry, with the partially evicted cache. -/
def evictDeleted : List (String × String) → List String → List (String × Nat) →
    Bool × List (String × Nat)
  | [], _, c => (true, c)
  | (id, _) :: rest, created, c =>
    if created.contains id then evictDeleted rest created c
    else if (assocFind id c).isSome then evictDeleted rest created (assocErase c id)
    else (false, c)

/-- The revision write-back loop of `flush`: for each store response, set
`_rev` on the cached wrapped document with that id; `false` is the
`KeyError` raised when the response's id is no longer cached. -/
def writeRevs : List (String × String) → SessionState → Bool × SessionState
  | [], s => (true, s)
  | (rid, rev) :: rest, s =>
    match assocFind rid s.cache with
    | none => (false, s)
    | some r =>
      match assocFind r s.heap with
      | none => (false, s)
      | some d =>
        writeRevs rest
          { s with heap := assocSet s.heap r (setField d "_rev" (Val.str rev)) }

/-- `Session.flush`: build the deletion records and the eager snapshot of
created/changed documents, send the deletions as one batched call, evict
deleted ids (keeping recreated ones) and clear `_deleted`, send the
additions/changes as a second batched call, write the returned revisions
back into the cached documents, then clear `_created` and `_changed`.
An error at any step leaves the state exactly as it was at that step.
`deletionRecs` is the deletion-record list comprehension at the top of
`flush`. -/
def deletionRecs (deleted : List (String × String)) : List Doc :=
  deleted.map fun p =>
    [("_id", Val.str p.1), ("_rev", Val.str p.2), ("_deleted", Val.bool true)]

def Session.flush (s : SessionState) (db : Store) :
    Option PyErr × SessionState × Store :=
  let deletions := deletionRecs s.deleted
  match snapshotAll s (s.created ++ s.changed) with
  | none => (some .keyError, s, db)
  | some updates =>
    match Store.update db deletions with
    | (.error e, db1) => (some (.storeErr e), s, db1)
    | (.ok _, db1) =>
      match evictDeleted s.deleted s.created s.cache with
      | (false, cache') => (some .keyError, { s with cache := cache' }, db1)
      | (true, cache') =>
        let s1 := { s with cache := cache', deleted := [] }
        match Store.update db1 updates with
        | (.error e, db2) => (some (.storeErr e), s1, db2)
        | (.ok resps, db2) =>
          match writeRevs resps s1 with
          | (false, s2) => (some .keyError, s2, db2)
          | (true, s2) => (none, { s2 with created := [], changed := [] }, db2)

/-! ## The mutation-tracking wrapper layer (`wrap`, `Dictionary`, `List`) -/

/-- One observable step of a wrapper operation: a mutation-callback
invocation, or delegation to the underlying container. -/
inductive WEvent where
  | cb : WEvent
  | deleg : WEvent
deriving DecidableEq

mutual
/-- Structural equality on values (Python `==` on JSON-like data),
used by `list.remove`. -/
def Val.beq : Val → Val → Bool
  | .str a, .str b => a == b
  | .int a, .int b => a == b
  | .bool a, .bool b => a == b
  | .obj a, .obj b => Val.beqFields a b
  | .arr a, .arr b => Val.beqArr a b
  | _, _ => false

def Val.beqFields : List (String × Val) → List (String × Val) → Bool
  | [], [] => true
  | (k1, v1) :: r1, (k2, v2) :: r2 => k1 == k2 && Val.beq v1 v2 && Val.beqFields r1 r2
  | _, _ => false

def Val.beqArr : List Val → List Val → Bool
  | [], [] => true
  | v1 :: r1, v2 :: r2 => Val.beq v1 v2 && Val.beqArr r1 r2
  | _, _ => false
end

/-- The `Dictionary` wrapper class: a map-like subject plus the mutation
callback it was wrapped with (identified by a token). -/
structure Dictionary where
  subject : List (String × Val)
  modified : Nat

/-- The `List` wrapper class: a sequence-like subject plus the mutation
callback it was wrapped with (identified by a token). -/
structure PyList where
  subject : List Val
  modified : Nat

/-- The result of `wrap`: containers come back wrapped, anything else raw. -/
inductive Wrapped where
  | dict : Dictionary → Wrapped
  | list : PyList → Wrapped
  | raw : Val → Wrapped

/-- `wrap(obj, modified)`: dicts become `Dictionary`, lists become `List`,
everything else is returned unwrapped. -/
def wrap (v : Val) (cb : Nat) : Wrapped :=
  match v with
  | .obj fields => .dict ⟨fields, cb⟩
  | .arr elems => .list ⟨elems, cb⟩
  | v => .raw v

/-- `Dictionary.__getitem__`: read the subject, wrap the value with the
same callback. -/
def Dictionary.getitem (d : Dictionary) (k : String) : Option Wrapped × List WEvent :=
  ((assocFind k d.subject).map fun v => wrap v d.modified, [.deleg])

/-- `Dictionary.__setitem__`: callback first, then delegate. -/
def Dictionary.setitem (d : Dictionary) (k : String) (v : Val) :
    Dictionary × List WEvent :=
  ({ d with subject := assocSet d.subject k v }, [.cb, .deleg])

/-- `Dictionary.__delitem__`: callback first, then delegate. -/
def Dictionary.delitem (d : Dictionary) (k : String) : Dictionary × List WEvent :=
  ({ d with subject := assocErase d.subject k }, [.cb, .deleg])

/-- `Dictionary.keys`: a pure read of the subject. -/
def Dictionary.keys (d : Dictionary) : List String × List WEvent :=
  (d.subject.map Prod.fst, [.deleg])

/-- `List.__getitem__`: read the subject, wrap the element with the same
callback. -/
def PyList.getitem (l : PyList) (i : Nat) : Option Wrapped × List WEvent :=
  ((l.subject.get? i).map fun v => wrap v l.modified, [.deleg])

/-- `List.__getslice__`: the slice copy is itself wrapped with the same
callback. -/
def PyList.getslice (l : PyList) (i j : Nat) : Wrapped × List WEvent :=
  (wrap (Val.arr ((l.subject.take j).drop i)) l.modified, [.deleg])

/-- `List.__setitem__`: callback first, then delegate. -/
def PyList.setitem (l : PyList) (i : Nat) (v : Val) : PyList × List WEvent :=
  ({ l with subject := l.subject.set i v }, [.cb, .deleg])

/-- `List.__delitem__`: callback first, then delegate. -/
def PyList.delitem (l : PyList) (i : Nat) : PyList × List WEvent :=
  ({ l with subject := l.subject.eraseIdx i }, [.cb, .deleg])

/-- `List.__setslice__`: callback first, then delegate. -/
def PyList.setslice (l : PyList) (i j : Nat) (repl : List Val) :
    PyList × List WEvent :=
  ({ l with subject := l.subject.take i ++ repl ++ l.subject.drop j }, [.cb, .deleg])

/-- `List.__delslice__`: callback first, then delegate. -/
def PyList.delslice (l : PyList) (i j : Nat) : PyList × List WEvent :=
  ({ l with subject := l.subject.take i ++ l.subject.drop j }, [.cb, .deleg])

/-- `List.append`: callback first, then delegate. -/
def PyList.append (l : PyList) (v : Val) : PyList × List WEvent :=
  ({ l with subject := l.subject ++ [v] }, [.cb, .deleg])

/-- `List.extend`: callback first, then delegate. -/
def PyList.extend (l : PyList) (vs : List Val) : PyList × List WEvent :=
  ({ l with subject := l.subject ++ vs }, [.cb, .deleg])

/-- `List.insert`: callback first, then delegate. -/
def PyList.insert (l : PyList) (i : Nat) (v : Val) : PyList × List WEvent :=
  ({ l with subject := l.subject.take i ++ [v] ++ l.subject.drop i }, [.cb, .deleg])

/-- `List.pop` (no index: pop the last element, returned unwrapped):
callback first, then delegate. -/
def PyList.pop (l : PyList) : (Option Val × PyList) × List WEvent :=
  ((l.subject.getLast?, { l with subject := l.subject.dropLast }), [.cb, .deleg])

/-- Remove the first element equal to `v` (Python `list.remove`). -/
def removeFirst : List Val → Val → List Val
  | [], _ => []
  | x :: rest, v => if Val.beq x v then rest else x :: removeFirst rest v

/-- `List.remove`: callback first, then delegate. -/
def PyList.remove (l : PyList) (v : Val) : PyList × List WEvent :=
  ({ l with subject := removeFirst l.subject v }, [.cb, .deleg])

/-! ## Bridging lemmas -/

theorem contains_true_iff {l : List String} {x : String} :
    l.contains x = true ↔ x ∈ l := by
  simp [List.contains, List.elem_eq_mem]

theorem contains_false_iff {l : List String} {x : String} :
    l.contains x = false ↔ x ∉ l := by
  rw [← Bool.not_eq_true, not_iff_not]
  exact contains_true_iff

theorem addToSet_contains (l : List String) (x : String) :
    (addToSet l x).contains x = true := by
  rw [contains_true_iff]
  unfold addToSet
  by_cases h : l.contains x
  · simp only [if_pos h]
    exact contains_true_iff.mp h
  · simp only [if_neg h]
    simp

theorem mem_addToSet (l : List String) (x : String) : x ∈ addToSet l x :=
  contains_true_iff.mp (addToSet_contains l x)

theorem addToSet_of_contains (l : List String) (x : String)
    (h : l.contains x = true) : addToSet l x = l := by
  unfold addToSet
  rw [if_pos h]

theorem addToSet_idem (l : List String) (x : String) :
    addToSet (addToSet l x) x = addToSet l x :=
  addToSet_of_contains _ _ (addToSet_contains l x)

/-! ## C3: the mutation-tracking wrapper -/

/-- Claim C3: every mutating operation of the wrapper layer (item
assignment, item deletion, append, insert, extend, remove, pop, slice
assignment, slice deletion) invokes the registered mutation callback
exactly once, before delegating to the underlying container; no read
operation invokes the callback; and every read that yields a nested dict
or list returns it wrapped with the same callback. -/
theorem wrapper_mutation_tracking :
    (∀ d k v, (Dictionary.setitem d k v).2 = [WEvent.cb, WEvent.deleg]
      ∧ (Dictionary.setitem d k v).1 = ⟨assocSet d.subject k v, d.modified⟩)
  ∧ (∀ d k, (Dictionary.delitem d k).2 = [WEvent.cb, WEvent.deleg]
      ∧ (Dictionary.delitem d k).1 = ⟨assocErase d.subject k, d.modified⟩)
  ∧ (∀ d k, (Dictionary.getitem d k).2 = [WEvent.deleg]
      ∧ (Dictionary.getitem d k).1
          = (assocFind k d.subject).map fun v => wrap v d.modified)
  ∧ (∀ d, (Dictionary.keys d).2 = [WEvent.deleg])
  ∧ (∀ l i v, (PyList.setitem l i v).2 = [WEvent.cb, WEvent.deleg]
      ∧ (PyList.setitem l i v).1 = ⟨l.subject.set i v, l.modified⟩)
  ∧ (∀ l i, (PyList.delitem l i).2 = [WEvent.cb, WEvent.deleg]
      ∧ (PyList.delitem l i).1 = ⟨l.subject.eraseIdx i, l.modified⟩)
  ∧ (∀ l i j repl, (PyList.setslice l i j repl).2 = [WEvent.cb, WEvent.deleg]
      ∧ (PyList.setslice l i j repl).1
          = ⟨l.subject.take i ++ repl ++ l.subject.drop j, l.modified⟩)
  ∧ (∀ l i j, (PyList.delslice l i j).2 = [WEvent.cb, WEvent.deleg]
      ∧ (PyList.delslice l i j).1
          = ⟨l.subject.take i ++ l.subject.drop j, l.modified⟩)
  ∧ (∀ l v, (PyList.append l v).2 = [WEvent.cb, WEvent.deleg]
      ∧ (PyList.append l v).1 = ⟨l.subject ++ [v], l.modified⟩)
  ∧ (∀ l vs, (PyList.extend l vs).2 = [WEvent.cb, WEvent.deleg]
      ∧ (PyList.extend l vs).1 = ⟨l.subject ++ vs, l.modified⟩)
  ∧ (∀ l i v, (PyList.insert l i v).2 = [WEvent.cb, WEvent.deleg]
      ∧ (PyList.insert l i v).1
          = ⟨l.subject.take i ++ [v] ++ l.subject.drop i, l.modified⟩)
  ∧ (∀ l, (PyList.pop l).2 = [WEvent.cb, WEvent.deleg]
      ∧ (PyList.pop l).1 = (l.subject.getLast?, ⟨l.subject.dropLast, l.modified⟩))
  ∧ (∀ l v, (PyList.remove l v).2 = [WEvent.cb, WEvent.deleg]
      ∧ (PyList.remove l v).1 = ⟨removeFirst l.subject v, l.modified⟩)
  ∧ (∀ l i, (PyList.getitem l i).2 = [WEvent.deleg]
      ∧ (PyList.getitem l i).1
          = (l.subject.get? i).map fun v => wrap v l.modified)
  ∧ (∀ l i j, (PyList.getslice l i j).2 = [WEvent.deleg]
      ∧ (PyList.getslice l i j).1
          = wrap (Val.arr ((l.subject.take j).drop i)) l.modified)
  ∧ (∀ f cb, wrap (Val.obj f) cb = Wrapped.dict ⟨f, cb⟩)
  ∧ (∀ e cb, wrap (Val.arr e) cb = Wrapped.list ⟨e, cb⟩) :=
  ⟨fun _ _ _ => ⟨rfl, rfl⟩, fun _ _ => ⟨rfl, rfl⟩, fun _ _ => ⟨rfl, rfl⟩,
   fun _ => rfl, fun _ _ _ => ⟨rfl, rfl⟩, fun _ _ => ⟨rfl, rfl⟩,
   fun _ _ _ _ => ⟨rfl, rfl⟩, fun _ _ _ => ⟨rfl, rfl⟩, fun _ _ => ⟨rfl, rfl⟩,
   fun _ _ => ⟨rfl, rfl⟩, fun _ _ _ => ⟨rfl, rfl⟩, fun _ => ⟨rfl, rfl⟩,
   fun _ _ => ⟨rfl, rfl⟩, fun _ _ => ⟨rfl, rfl⟩, fun _ _ _ => ⟨rfl, rfl⟩,
   fun _ _ => rfl, fun _ _ => rfl⟩

/-! ## C2: the tracking-set mutual-exclusion claim -/

/-- The session state produced by `create` of `{_id: "x"}` on a fresh
session. -/
def c2AfterCreate : SessionState :=
  { nextRef := 1, heap := [(0, [("_id", Val.str "x")])], cache := [("x", 0)],
    created := ["x"], changed := [], deleted := [], nextUuid := 0 }

/-- Claim C2 counterexample: create a document and then fire its mutation
callback once.  The id ends up in `created` and in `changed`
simultaneously, so the claimed mutual exclusion of {created, changed} is
false, and the callback does affect an id in `created`. -/
theorem created_changed_not_exclusive_cex :
    Session.create emptySession [("_id", Val.str "x")] = .ok ("x", c2AfterCreate)
  ∧ (Session.modified c2AfterCreate 0).created.contains "x" = true
  ∧ (Session.modified c2AfterCreate 0).changed.contains "x" = true :=
  ⟨rfl, rfl, rfl⟩

/-- Claim C2 (amended): the mutation callback adds the wrapped document's
current id to `changed` unconditionally and changes nothing else; it is
idempotent, and an id already in `changed` is unaffected — but an id in
`created` also enters `changed`, so `created` and `changed` may intersect
after mutating a newly created document. -/
theorem modified_adds_to_changed (s : SessionState) (r : Nat) (d : Doc)
    (id : String) (hr : assocFind r s.heap = some d) (hid : docId d = some id) :
    (Session.modified s r).changed = addToSet s.changed id
  ∧ (Session.modified s r).created = s.created
  ∧ (Session.modified s r).cache = s.cache
  ∧ (Session.modified s r).deleted = s.deleted
  ∧ (Session.modified s r).heap = s.heap
  ∧ (s.changed.contains id = true → Session.modified s r = s)
  ∧ Session.modified (Session.modified s r) r = Session.modified s r := by
  have hm : Session.modified s r = { s with changed := addToSet s.changed id } := by
    unfold Session.modified
    simp only [hr, hid]
  refine ⟨by rw [hm], by rw [hm], by rw [hm], by rw [hm], by rw [hm], ?_, ?_⟩
  · intro hcon
    rw [hm, addToSet_of_contains _ _ hcon]
  · rw [hm]
    unfold Session.modified
    simp only [show assocFind r ({ s with changed := addToSet s.changed id } : SessionState).heap
          = some d from hr, hid]
    simp [addToSet_idem]

/-- Witness for `modified_adds_to_changed` at the concrete post-`create`
state. -/
theorem modified_adds_to_changed_witness :
    (Session.modified c2AfterCreate 0).changed = addToSet c2AfterCreate.changed "x"
  ∧ (Session.modified c2AfterCreate 0).created = c2AfterCreate.created
  ∧ (Session.modified c2AfterCreate 0).cache = c2AfterCreate.cache
  ∧ (Session.modified c2AfterCreate 0).deleted = c2AfterCreate.deleted
  ∧ (Session.modified c2AfterCreate 0).heap = c2AfterCreate.heap
  ∧ (c2AfterCreate.changed.contains "x" = true →
      Session.modified c2AfterCreate 0 = c2AfterCreate)
  ∧ Session.modified (Session.modified c2AfterCreate 0) 0
      = Session.modified c2AfterCreate 0 :=
  modified_adds_to_changed c2AfterCreate 0 [("_id", Val.str "x")] "x" rfl rfl

/-! ## C9: whole-document indexed assignment -/

/-- The session state produced by `session["y"] = {a: 1}` on a fresh
session. -/
def c9AfterCreate : SessionState :=
  { nextRef := 1, heap := [(0, [("a", Val.int 1), ("_id", Val.str "y")])],
    cache := [("y", 0)], created := ["y"], changed := [], deleted := [],
    nextUuid := 0 }

/-- Claim C9 counterexample: the ignored write (payload carrying `_rev`)
returns exactly what the create path returns — Python `None`, which the
`session[id] = payload` statement discards anyway — so the no-op has no
discoverable no-op return value, even though it does leave the state
unchanged. -/
theorem setitem_no_discoverable_noop_cex :
    Session.setitem emptySession "x" [("_rev", Val.str "1"), ("a", Val.int 1)]
      = .ok (none, emptySession)
  ∧ Session.setitem emptySession "y" [("a", Val.int 1)] = .ok (none, c9AfterCreate)
  ∧ c9AfterCreate ≠ emptySession :=
  ⟨rfl, rfl, fun h => absurd (congrArg SessionState.nextRef h) (by decide)⟩

/-- Claim C9 (amended): indexed assignment of a payload carrying `_rev` is
a silent no-op — the cache and all tracking sets are unchanged and the call
returns Python `None`, indistinguishable from the create path's return;
a payload without `_rev` behaves exactly as `create` of a copy of the
payload with `_id` set to the key. -/
theorem setitem_rev_ignored (s : SessionState) (id : String) (content : Doc) :
    (hasField content "_rev" = true → Session.setitem s id content = .ok (none, s))
  ∧ (hasField content "_rev" = false →
      Session.setitem s id content =
        (Session.create s (setField content "_id" (Val.str id))).map
          fun p => (none, p.2)) := by
  constructor
  · intro h
    unfold Session.setitem
    rw [if_pos h]
  · intro h
    unfold Session.setitem
    rw [if_neg (by simp [h])]
    cases Session.create s (setField content "_id" (Val.str id)) with
    | error e => rfl
    | ok p => rfl

/-- Witness for `setitem_rev_ignored` at concrete payloads with and
without `_rev`. -/
theorem setitem_rev_ignored_witness :
    Session.setitem emptySession "x" [("_rev", Val.str "1"), ("a", Val.int 1)]
      = .ok (none, emptySession)
  ∧ Session.setitem emptySession "y" [("a", Val.int 1)] =
      (Session.create emptySession
        (setField [("a", Val.int 1)] "_id" (Val.str "y"))).map fun p => (none, p.2) :=
  ⟨(setitem_rev_ignored emptySession "x" [("_rev", Val.str "1"), ("a", Val.int 1)]).1 rfl,
   (setitem_rev_ignored emptySession "y" [("a", Val.int 1)]).2 rfl⟩

/-! ## C4: tombstone visibility -/

/-- A persisted document sitting in the example store. -/
def exDoc : Doc := [("_id", Val.str "a"), ("_rev", Val.str "r0")]

/-- An example store holding just `exDoc`. -/
def exDb : Store :=
  { docs := [("a", exDoc)], nextRev := 0, log := [], failPlan := fun _ => none }

/-- `exDb` after the session's one cache-miss `get`. -/
def exDb1 : Store := { exDb with log := [.getCall "a"] }

/-- The session after `get("a")` fetched and cached `exDoc`. -/
def exS1 : SessionState :=
  { emptySession with nextRef := 1, heap := [(0, exDoc)], cache := [("a", 0)] }

/-- `exS1` after `delete` of the cached document. -/
def exS2 : SessionState := { exS1 with deleted := [("a", "r0")] }

/-- Claim C4 counterexample: after `delete` of a persisted cached
document, `get(id, default)` with a non-`None` default returns Python
`None`, not the caller's supplied default, while the claim says the
caller's default is returned. -/
theorem tombstone_default_cex :
    Session.get emptySession exDb "a" .pynone = .ok (.docRef 0, exS1, exDb1)
  ∧ Session.delete exS1 0 = .ok exS2
  ∧ Session.get exS2 exDb1 "a" (GetResult.other 7) = .ok (.pynone, exS2, exDb1)
  ∧ GetResult.pynone ≠ GetResult.other 7
  ∧ assocFind "a" exS2.cache = some 0 :=
  ⟨rfl, rfl, rfl, by decide, rfl⟩

/-- Claim C4 (amended): after `delete(doc)` of a previously persisted,
cached document and before flush, `get(id, default)` returns Python `None`
regardless of the supplied default (coinciding with the default only when
the default is `None`), strict indexed access raises `NotFound`, and the
wrapped object remains referenced in the cache. -/
theorem tombstone_visibility (s s' : SessionState) (db : Store) (id : String)
    (r : Nat) (d : Doc) (default : GetResult)
    (hc : assocFind id s.cache = some r)
    (hh : assocFind r s.heap = some d)
    (hid : docId d = some id)
    (hnc : s.created.contains id = false)
    (hdel : Session.delete s r = .ok s') :
    Session.get s' db id default = .ok (.pynone, s', db)
  ∧ Session.getitem s' db id = .error .resourceNotFound
  ∧ assocFind id s'.cache = some r := by
  unfold Session.delete at hdel
  rw [hh] at hdel
  simp only [hid] at hdel
  rw [if_neg (by rw [hnc]; simp)] at hdel
  rcases hrev : docRev d with _ | rev
  · rw [hrev] at hdel
    exact absurd hdel (by simp)
  · rw [hrev] at hdel
    simp only [Except.ok.injEq] at hdel
    subst hdel
    have hget : ∀ dflt, Session.get
        { s with changed := s.changed.erase id, deleted := assocSet s.deleted id rev }
        db id dflt
        = .ok (.pynone,
            { s with changed := s.changed.erase id,
                     deleted := assocSet s.deleted id rev }, db) := by
      intro dflt
      unfold Session.get
      simp only [hc, hh, hid]
      rw [if_pos (by simp [didOf, hh, hid, assocFind_set_self, Option.getD,
        contains_false_iff.mp hnc])]
    refine ⟨hget default, ?_, hc⟩
    unfold Session.getitem
    rw [hget .pynone]
    rfl

/-- Witness for `tombstone_visibility` at the concrete deleted document. -/
theorem tombstone_visibility_witness :
    Session.get exS2 exDb1 "a" (GetResult.other 3) = .ok (.pynone, exS2, exDb1)
  ∧ Session.getitem exS2 exDb1 "a" = .error .resourceNotFound
  ∧ assocFind "a" exS2.cache = some 0 :=
  tombstone_visibility exS1 exS2 exDb1 "a" 0 exDoc (GetResult.other 3)
    rfl rfl rfl rfl rfl

/-! ## C10: delete-by-id -/

/-- Claim C10: `del session[id]` first resolves the document through
strict indexed access: an id absent from both cache and store, or
tombstoned, raises `NotFound` with the session state unchanged (the
resolution attempt at most logs a store read); a resolving id behaves
exactly as `delete` of the resolved cached document. -/
theorem delitem_resolves_then_deletes (s : SessionState) (db : Store) (id : String) :
    (assocFind id s.cache = none → assocFind id db.docs = none →
      Session.delitem s db id = .error .resourceNotFound
      ∧ Session.get s db id .pynone
          = .ok (.pynone, s, { db with log := db.log ++ [.getCall id] }))
  ∧ (∀ r d, assocFind id s.cache = some r → assocFind r s.heap = some d →
      docId d = some id → (assocFind id s.deleted).isSome = true →
      s.created.contains id = false →
      Session.delitem s db id = .error .resourceNotFound
      ∧ Session.get s db id .pynone = .ok (.pynone, s, db))
  ∧ (∀ r s1 db1, Session.getitem s db id = .ok (r, s1, db1) →
      Session.delitem s db id = (Session.delete s1 r).map fun s2 => (s2, db1)) := by
  refine ⟨?_, ?_, ?_⟩
  · intro hc hdb
    have hget : Session.get s db id .pynone
        = .ok (.pynone, s, { db with log := db.log ++ [.getCall id] }) := by
      unfold Session.get Store.get
      simp only [hc, hdb]
    refine ⟨?_, hget⟩
    unfold Session.delitem Session.getitem
    rw [hget]
    rfl
  · intro r d hc hh hid hdel hnc
    have hget : Session.get s db id .pynone = .ok (.pynone, s, db) := by
      unfold Session.get
      simp only [hc, hh, hid]
      rw [if_pos (by simp [didOf, hh, hid, hdel, Option.getD, contains_false_iff.mp hnc])]
    refine ⟨?_, hget⟩
    unfold Session.delitem Session.getitem
    rw [hget]
    rfl
  · intro r s1 db1 hres
    unfold Session.delitem
    rw [hres]
    show (Session.delete s1 r).bind (fun s2 => .ok (s2, db1))
        = (Session.delete s1 r).map fun s2 => (s2, db1)
    cases Session.delete s1 r with
    | error e => rfl
    | ok s2 => rfl

/-- Witness for `delitem_resolves_then_deletes`: the absent-id case on the
example store, the tombstoned case, and the resolving case. -/
theorem delitem_resolves_then_deletes_witness :
    (Session.delitem emptySession exDb "zz" = .error .resourceNotFound
      ∧ Session.get emptySession exDb "zz" .pynone
          = .ok (.pynone, emptySession, { exDb with log := exDb.log ++ [.getCall "zz"] }))
  ∧ (Session.delitem exS2 exDb1 "a" = .error .resourceNotFound
      ∧ Session.get exS2 exDb1 "a" .pynone = .ok (.pynone, exS2, exDb1))
  ∧ Session.delitem exS1 exDb1 "a"
      = (Session.delete exS1 0).map fun s2 => (s2, exDb1) :=
  ⟨(delitem_resolves_then_deletes emptySession exDb "zz").1 rfl rfl,
   (delitem_resolves_then_deletes exS2 exDb1 "a").2.1 0 exDoc rfl rfl rfl rfl rfl,
   (delitem_resolves_then_deletes exS1 exDb1 "a").2.2 0 exS1 exDb1 rfl⟩

/-! ## C1: the identity map -/

/-- Claim C7: for a persisted document cached under id `X`, `delete` of it
followed by `create` of new content with `_id = X` makes `get(X)` return
the newly created wrapped instance with the new content, not the
tombstone's not-found result. -/
theorem recreate_after_delete (s s1 s2 : SessionState) (db : Store)
    (id : String) (r : Nat) (d data : Doc)
    (hc : assocFind id s.cache = some r)
    (hh : assocFind r s.heap = some d)
    (hid : docId d = some id)
    (hnc : s.created.contains id = false)
    (hdataid : docId data = some id)
    (hdel : Session.delete s r = .ok s1)
    (hcre : Session.create s1 data = .ok (id, s2)) :
    Session.get s2 db id .pynone = .ok (.docRef s1.nextRef, s2, db)
  ∧ assocFind s1.nextRef s2.heap = some data := by
  have hhasid : hasField data "_id" = true := by
    unfold docId at hdataid
    unfold hasField
    rcases hg : getField data "_id" with _ | v
    · rw [hg] at hdataid
      simp at hdataid
    · simp [hg]
  unfold Session.delete at hdel
  rw [hh] at hdel
  simp only [hid] at hdel
  rw [if_neg (by rw [hnc]; simp)] at hdel
  rcases hrev : docRev d with _ | rev
  · rw [hrev] at hdel
    exact absurd hdel (by simp)
  · rw [hrev] at hdel
    simp only [Except.ok.injEq] at hdel
    unfold Session.create at hcre
    rw [if_pos hhasid, if_pos hhasid] at hcre
    simp only [hdataid, Session.cached, Except.ok.injEq, Prod.mk.injEq] at hcre
    obtain ⟨-, hs2⟩ := hcre
    subst hs2
    have hc2 : assocFind id (assocSet s1.cache id s1.nextRef) = some s1.nextRef :=
      assocFind_set_self _ _ _
    have hh2 : assocFind s1.nextRef (assocSet s1.heap s1.nextRef data) = some data :=
      assocFind_set_self _ _ _
    constructor
    · unfold Session.get
      simp only [hc2, hh2, hdataid]
      rw [if_neg (by simp [didOf, hh2, hdataid, Option.getD, mem_addToSet])]
    · exact hh2

/-- The session after `get` of the persisted document in the C7 scenario. -/
def c7S0 : SessionState :=
  { nextRef := 1, heap := [(0, [("_id", Val.str "x"), ("_rev", Val.str "r0"),
      ("foo", Val.str "bar")])],
    cache := [("x", 0)], created := [], changed := [], deleted := [], nextUuid := 0 }

/-- `c7S0` after `delete` of the cached document. -/
def c7S1 : SessionState := { c7S0 with deleted := [("x", "r0")] }

/-- `c7S1` after `create({_id: x, foo: wibble})`. -/
def c7S2 : SessionState :=
  { c7S1 with
    nextRef := 2,
    heap := [(0, [("_id", Val.str "x"), ("_rev", Val.str "r0"), ("foo", Val.str "bar")]),
             (1, [("_id", Val.str "x"), ("foo", Val.str "wibble")])],
    cache := [("x", 1)], created := ["x"] }

/-- Witness for `recreate_after_delete` on the concrete scenario. -/
theorem recreate_after_delete_witness :
    Session.get c7S2 exDb "x" .pynone = .ok (.docRef 1, c7S2, exDb)
  ∧ assocFind 1 c7S2.heap = some [("_id", Val.str "x"), ("foo", Val.str "wibble")] :=
  recreate_after_delete c7S0 c7S1 c7S2 exDb "x" 0
    [("_id", Val.str "x"), ("_rev", Val.str "r0"), ("foo", Val.str "bar")]
    [("_id", Val.str "x"), ("foo", Val.str "wibble")]
    rfl rfl rfl rfl rfl rfl rfl

/-! ## C6: delete-phase atomicity of flush -/

/-- Claim C6: if the batched delete call (the first store call inside
`flush`) raises a store error, the error propagates unchanged, the session
state (cache, created, changed, deleted) is returned exactly as it was
before the flush, and the addition phase is not attempted: the store's
contents are untouched and its log shows exactly the one attempted delete
call. -/
theorem flush_delete_phase_atomic (s : SessionState) (db : Store) (e : Nat)
    (updates : List Doc)
    (hsnap : snapshotAll s (s.created ++ s.changed) = some updates)
    (hfail : db.failPlan (updCalls db.log) = some e) :
    Session.flush s db =
      (some (.storeErr e), s,
        { db with log := db.log ++ [.updateCall (deletionRecs s.deleted)] }) := by
  unfold Session.flush
  simp only [hsnap]
  unfold Store.update
  simp only [hfail]

/-- A store that fails its first `update` call with error 42. -/
def c6Db : Store :=
  { docs := [("a", exDoc)], nextRev := 0, log := [],
    failPlan := fun n => if n = 0 then some 42 else none }

/-- Witness for `flush_delete_phase_atomic`: flushing the tombstoned
session against the failing store. -/
theorem flush_delete_phase_atomic_witness :
    Session.flush exS2 c6Db =
      (some (.storeErr 42), exS2,
        { c6Db with log := c6Db.log ++ [.updateCall (deletionRecs exS2.deleted)] }) :=
  flush_delete_phase_atomic exS2 c6Db 42 [] rfl rfl

/-! ## C8: no batch-split rejection -/

/-- The persisted document in the C8 recreate scenario. -/
def c8OldStored : Doc :=
  [("_id", Val.str "x"), ("_rev", Val.str "r0"), ("foo", Val.str "bar")]

/-- The recreated content in the C8 scenario. -/
def c8NewDoc : Doc := [("_id", Val.str "x"), ("foo", Val.str "wibble")]

/-- The deletion record `flush` builds for the tombstoned revision. -/
def c8DelRec : Doc :=
  [("_id", Val.str "x"), ("_rev", Val.str "r0"), ("_deleted", Val.bool true)]

/-- A session in the delete-then-recreate state: `x` is simultaneously in
`deleted` and in `created`. -/
def c8S : SessionState :=
  { nextRef := 2, heap := [(0, c8OldStored), (1, c8NewDoc)], cache := [("x", 1)],
    created := ["x"], changed := [], deleted := [("x", "r0")], nextUuid := 0 }

/-- The store holding the persisted document in the C8 scenario. -/
def c8Db : Store :=
  { docs := [("x", c8OldStored)], nextRev := 5, log := [], failPlan := fun _ => none }

/-- The recreated document as stored after flush (revision attached). -/
def c8Stored : Doc :=
  [("_id", Val.str "x"), ("foo", Val.str "wibble"), ("_rev", Val.str "r6")]

/-- The session after the C8 flush. -/
def c8Sf : SessionState :=
  { c8S with
    heap := [(0, c8OldStored), (1, c8Stored)],
    created := [], changed := [], deleted := [] }

/-- The store after the C8 flush. -/
def c8Dbf : Store :=
  { docs := [("x", c8Stored)], nextRev := 7,
    log := [.updateCall [c8DelRec], .updateCall [c8NewDoc]],
    failPlan := c8Db.failPlan }

/-- Claim C8 counterexample: with `x` simultaneously in `deleted` and in
`created`, `flush` neither rejects nor asserts: it succeeds, silently
sending a delete record for `x` in the first batched call and an upsert
record for `x` in the second. -/
theorem flush_no_batch_split_reject_cex :
    c8S.deleted = [("x", "r0")]
  ∧ c8S.created = ["x"]
  ∧ Session.flush c8S c8Db = (none, c8Sf, c8Dbf)
  ∧ c8Dbf.log = [.updateCall [c8DelRec], .updateCall [c8NewDoc]] :=
  ⟨rfl, rfl, rfl, rfl⟩

/-! ## Lemmas about the flush building blocks -/

theorem writeRevs_heap_stable (resps : List (String × String)) (s : SessionState)
    (r : Nat)
    (h : ∀ p ∈ resps, ∀ rp, assocFind p.1 s.cache = some rp → rp ≠ r) :
    assocFind r (writeRevs resps s).2.heap = assocFind r s.heap := by
  induction resps generalizing s with
  | nil => rfl
  | cons p rest ih =>
    obtain ⟨rid, rev⟩ := p
    rcases hf : assocFind rid s.cache with _ | r0
    · simp [writeRevs, hf]
    · rcases hh : assocFind r0 s.heap with _ | d
      · simp [writeRevs, hf, hh]
      · simp only [writeRevs, hf, hh]
        have hne : r0 ≠ r := h (rid, rev) (List.mem_cons_self _ _) r0 hf
        set s' : SessionState := { s with heap := assocSet s.heap r0 (setField d "_rev" (Val.str rev)) } with hs'
        have hcache' : s'.cache = s.cache := rfl
        rw [ih s' fun q hq rp hrp =>
          h q (List.mem_cons_of_mem _ hq) rp (hcache' ▸ hrp)]
        exact assocFind_set_ne s.heap r0 r _ hne

theorem writeRevs_spec (resps : List (String × String)) (s : SessionState)
    (hnd : (resps.map Prod.fst).Nodup)
    (hc : ∀ p ∈ resps, ∃ r, assocFind p.1 s.cache = some r
      ∧ (assocFind r s.heap).isSome = true)
    (hinj : ∀ i j r, assocFind i s.cache = some r → assocFind j s.cache = some r →
      i = j) :
    (writeRevs resps s).1 = true
  ∧ ∀ id rev, (id, rev) ∈ resps → ∃ r d, assocFind id s.cache = some r
      ∧ assocFind r s.heap = some d
      ∧ assocFind r (writeRevs resps s).2.heap
          = some (setField d "_rev" (Val.str rev)) := by
  induction resps generalizing s with
  | nil => exact ⟨rfl, by intro id rev h; cases h⟩
  | cons p rest ih =>
    obtain ⟨rid, rev0⟩ := p
    simp only [List.map_cons, List.nodup_cons] at hnd
    obtain ⟨r0, hf, hsome⟩ := hc (rid, rev0) (List.mem_cons_self _ _)
    obtain ⟨d0, hh⟩ := Option.isSome_iff_exists.mp hsome
    simp only [writeRevs, hf, hh]
    set s' : SessionState := { s with heap := assocSet s.heap r0 (setField d0 "_rev" (Val.str rev0)) } with hs'
    have hcache' : s'.cache = s.cache := rfl
    have hheap' : s'.heap = assocSet s.heap r0 (setField d0 "_rev" (Val.str rev0)) := rfl
    have hc' : ∀ p ∈ rest, ∃ r, assocFind p.1 s'.cache = some r
        ∧ (assocFind r s'.heap).isSome = true := by
      intro q hq
      obtain ⟨rq, hfq, hsq⟩ := hc q (List.mem_cons_of_mem _ hq)
      refine ⟨rq, by rw [hcache']; exact hfq, ?_⟩
      rw [hheap']
      by_cases he : rq = r0
      · subst he
        rw [assocFind_set_self]
        rfl
      · rw [assocFind_set_ne s.heap r0 rq _ fun hx => he hx.symm]
        exact hsq
    have hinj' : ∀ i j r, assocFind i s'.cache = some r →
        assocFind j s'.cache = some r → i = j := by
      intro i j r h1 h2
      rw [hcache'] at h1 h2
      exact hinj i j r h1 h2
    obtain ⟨hok, hall⟩ := ih s' hnd.2 hc' hinj'
    refine ⟨hok, ?_⟩
    intro id rev hmem
    rcases List.mem_cons.mp hmem with heq | hmem'
    · obtain ⟨rfl, rfl⟩ : id = rid ∧ rev = rev0 := by
        simpa [Prod.ext_iff] using heq
      refine ⟨r0, d0, hf, hh, ?_⟩
      have hstab : assocFind r0 (writeRevs rest s').2.heap
          = assocFind r0 s'.heap := by
        apply writeRevs_heap_stable
        intro q hq rp hrp he
        subst he
        rw [hcache'] at hrp
        exact hnd.1 (hinj q.1 id rp hrp hf ▸ List.mem_map_of_mem Prod.fst hq)
      rw [hstab, hheap']
      exact assocFind_set_self s.heap r0 _
    · obtain ⟨rq, dq, hfq, hhq, hfinal⟩ := hall id rev hmem'
      rw [hcache'] at hfq
      rw [hheap', assocFind_set_ne s.heap r0 rq _ (fun hx => by
        have hne : rq ≠ r0 := by
          intro he
          subst he
          have hidr : id = rid := hinj id rid rq hfq hf
          exact hnd.1 (hidr ▸ List.mem_map_of_mem Prod.fst hmem')
        exact hne hx.symm)] at hhq
      exact ⟨rq, dq, hfq, hhq, hfinal⟩

theorem snapshotAll_some (s : SessionState) (ids : List String)
    (h : ∀ i ∈ ids, ∃ r d, assocFind i s.cache = some r
      ∧ assocFind r s.heap = some d) :
    ∃ updates, snapshotAll s ids = some updates := by
  induction ids with
  | nil => exact ⟨[], rfl⟩
  | cons i rest ih =>
    obtain ⟨r, d, hcf, hhf⟩ := h i (List.mem_cons_self _ _)
    obtain ⟨ds, hds⟩ := ih fun j hj => h j (List.mem_cons_of_mem _ hj)
    exact ⟨d :: ds, by unfold snapshotAll; simp only [hcf, hhf, hds]⟩

theorem snapshot_mem_of_id (s : SessionState) (ids : List String)
    (updates : List Doc) (hsnap : snapshotAll s ids = some updates)
    (id : String) (r : Nat) (d : Doc) (hid : id ∈ ids)
    (hc : assocFind id s.cache = some r) (hh : assocFind r s.heap = some d) :
    d ∈ updates := by
  induction ids generalizing updates with
  | nil => cases hid
  | cons i rest ih =>
    unfold snapshotAll at hsnap
    rcases hcf : assocFind i s.cache with _ | r0
    · simp only [hcf] at hsnap
      cases hsnap
    · simp only [hcf] at hsnap
      rcases hhf : assocFind r0 s.heap with _ | d0
      · simp only [hhf] at hsnap
        cases hsnap
      · simp only [hhf] at hsnap
        rcases hrest : snapshotAll s rest with _ | ds
        · simp only [hrest] at hsnap
          cases hsnap
        · simp only [hrest] at hsnap
          obtain rfl : d0 :: ds = updates := by
            simpa using hsnap
          rcases List.mem_cons.mp hid with rfl | hid'
          · rw [hc] at hcf
            injection hcf with hr0
            subst hr0
            rw [hh] at hhf
            injection hhf with hd0
            subst hd0
            exact List.mem_cons_self _ _
          · exact List.mem_cons_of_mem _ (ih ds hrest hid')

theorem applyRecs_find_other (docs : List (String × Doc)) (nr : Nat)
    (recs : List Doc) (k : String)
    (h : k ∉ recs.map fun r => (docId r).getD "") :
    assocFind k (applyRecs docs nr recs).1 = assocFind k docs := by
  induction recs generalizing docs nr with
  | nil => rfl
  | cons rec rest ih =>
    simp only [List.map_cons, List.mem_cons, not_or] at h
    have hne : (docId rec).getD "" ≠ k := fun hh => h.1 hh.symm
    by_cases hdel : hasField rec "_deleted" = true
    · simp only [applyRecs, if_pos hdel]
      rw [ih _ _ h.2]
      exact assocFind_erase_ne docs _ k hne
    · simp only [applyRecs, if_neg hdel]
      rw [ih _ _ h.2]
      exact assocFind_set_ne docs _ k _ hne

theorem applyRecs_upserts (docs : List (String × Doc)) (nr : Nat)
    (recs : List Doc)
    (hnd : (recs.map fun r => (docId r).getD "").Nodup)
    (hnodel : ∀ rec ∈ recs, hasField rec "_deleted" = false) :
    ∀ rec ∈ recs, ∃ rev,
      ((docId rec).getD "", rev) ∈ (applyRecs docs nr recs).2.2
      ∧ assocFind ((docId rec).getD "") (applyRecs docs nr recs).1
          = some (setField rec "_rev" (Val.str rev)) := by
  induction recs generalizing docs nr with
  | nil =>
    intro rec h
    cases h
  | cons rec0 rest ih =>
    simp only [List.map_cons, List.nodup_cons] at hnd
    have hdel0 : hasField rec0 "_deleted" = false :=
      hnodel rec0 (List.mem_cons_self _ _)
    have hdel0' : ¬(hasField rec0 "_deleted" = true) := by
      rw [hdel0]
      simp
    rcases hAR : applyRecs (assocSet docs ((docId rec0).getD "")
        (setField rec0 "_rev" (Val.str ("r" ++ toString nr)))) (nr + 1) rest
      with ⟨docsF, nrF, respsF⟩
    intro rec hmem
    simp only [applyRecs, if_neg hdel0', hAR]
    rcases List.mem_cons.mp hmem with rfl | hmem'
    · refine ⟨"r" ++ toString nr, List.mem_cons_self _ _, ?_⟩
      have hother := applyRecs_find_other (assocSet docs ((docId rec).getD "")
          (setField rec "_rev" (Val.str ("r" ++ toString nr)))) (nr + 1) rest
          ((docId rec).getD "") hnd.1
      rw [hAR] at hother
      have hself := assocFind_set_self docs ((docId rec).getD "")
          (setField rec "_rev" (Val.str ("r" ++ toString nr)))
      show assocFind ((docId rec).getD "") docsF
          = some (setField rec "_rev" (Val.str ("r" ++ toString nr)))
      calc assocFind ((docId rec).getD "") docsF
          = assocFind ((docId rec).getD "") (assocSet docs ((docId rec).getD "")
              (setField rec "_rev" (Val.str ("r" ++ toString nr)))) := hother
        _ = some (setField rec "_rev" (Val.str ("r" ++ toString nr))) := hself
    · obtain ⟨rev, hresp, hfind⟩ := ih _ _ hnd.2
        (fun q hq => hnodel q (List.mem_cons_of_mem _ hq)) rec hmem'
      rw [hAR] at hresp hfind
      exact ⟨rev, List.mem_cons_of_mem _ hresp, hfind⟩

theorem snapshotAll_tracked (s : SessionState) (ids : List String)
    (updates : List Doc) (hsnap : snapshotAll s ids = some updates) :
    ∀ i ∈ ids, ∃ r d, assocFind i s.cache = some r
      ∧ assocFind r s.heap = some d := by
  induction ids generalizing updates with
  | nil =>
    intro i hi
    cases hi
  | cons i0 rest ih =>
    unfold snapshotAll at hsnap
    rcases hcf : assocFind i0 s.cache with _ | r
    · simp only [hcf] at hsnap
      cases hsnap
    · simp only [hcf] at hsnap
      rcases hhf : assocFind r s.heap with _ | d
      · simp only [hhf] at hsnap
        cases hsnap
      · simp only [hhf] at hsnap
        rcases hrest : snapshotAll s rest with _ | ds
        · simp only [hrest] at hsnap
          cases hsnap
        · simp only [hrest] at hsnap
          intro i hi
          rcases List.mem_cons.mp hi with rfl | hi'
          · exact ⟨r, d, hcf, hhf⟩
          · exact ih ds hrest i hi'

/-- One equation describing the whole of a `flush` whose snapshot
succeeds, whose store does not fail, and whose eviction loop succeeds:
both batched calls are sent (deletions first, then the snapshot), the
deleted ids are evicted, `deleted` is cleared, and the outcome only
depends on the revision write-back loop. -/
theorem flush_unfold (s : SessionState) (db : Store) (updates : List Doc)
    (hsnap : snapshotAll s (s.created ++ s.changed) = some updates)
    (hnofail : ∀ n, db.failPlan n = none)
    (hevict : (evictDeleted s.deleted s.created s.cache).1 = true) :
    Session.flush s db
      = (match writeRevs (applyRecs
            (applyRecs db.docs db.nextRev (deletionRecs s.deleted)).1
            (applyRecs db.docs db.nextRev (deletionRecs s.deleted)).2.1 updates).2.2
            { s with cache := (evictDeleted s.deleted s.created s.cache).2,
                     deleted := [] } with
         | (false, s2) => (some .keyError, s2,
            { docs := (applyRecs (applyRecs db.docs db.nextRev
                (deletionRecs s.deleted)).1
                (applyRecs db.docs db.nextRev (deletionRecs s.deleted)).2.1 updates).1,
              nextRev := (applyRecs (applyRecs db.docs db.nextRev
                (deletionRecs s.deleted)).1
                (applyRecs db.docs db.nextRev (deletionRecs s.deleted)).2.1 updates).2.1,
              log := db.log ++ [.updateCall (deletionRecs s.deleted), .updateCall updates],
              failPlan := db.failPlan })
         | (true, s2) => (none, { s2 with created := [], changed := [] },
            { docs := (applyRecs (applyRecs db.docs db.nextRev
                (deletionRecs s.deleted)).1
                (applyRecs db.docs db.nextRev (deletionRecs s.deleted)).2.1 updates).1,
              nextRev := (applyRecs (applyRecs db.docs db.nextRev
                (deletionRecs s.deleted)).1
                (applyRecs db.docs db.nextRev (deletionRecs s.deleted)).2.1 updates).2.1,
              log := db.log ++ [.updateCall (deletionRecs s.deleted), .updateCall updates],
              failPlan := db.failPlan })) := by
  unfold Session.flush
  simp only [hsnap]
  unfold Store.update
  simp only [hnofail]
  rcases hE : evictDeleted s.deleted s.created s.cache with ⟨ev, cache'⟩
  have hev : ev = true := by
    rw [hE] at hevict
    exact hevict
  subst hev
  simp only [hE]
  rcases hW : writeRevs (applyRecs
      (applyRecs db.docs db.nextRev (deletionRecs s.deleted)).1
      (applyRecs db.docs db.nextRev (deletionRecs s.deleted)).2.1 updates).2.2
      { s with cache := cache', deleted := [] } with ⟨wb, s2⟩
  cases wb <;> simp [hW, List.append_assoc]

/-- Claim C8 (amended): when an id is simultaneously in `deleted` and in
`created` or `changed` at the start of a `flush` whose snapshot, store
calls and eviction succeed, the implementation does not reject or assert:
it sends exactly two batched calls — the deletion records first (including
the tombstone record for that id), then the snapshot (including an upsert
record for that id).  This two-call split is deliberate (the COUCHDB-188
workaround) and is what makes delete-then-recreate work. -/
theorem flush_two_phase_no_reject (s : SessionState) (db : Store)
    (id rev : String) (updates : List Doc)
    (hwfm : ∀ p ∈ s.cache, (assocFind p.2 s.heap).map docId = some (some p.1))
    (hsnap : snapshotAll s (s.created ++ s.changed) = some updates)
    (hnofail : ∀ n, db.failPlan n = none)
    (hevict : (evictDeleted s.deleted s.created s.cache).1 = true)
    (hdel : assocFind id s.deleted = some rev)
    (hid : id ∈ s.created ∨ id ∈ s.changed) :
    (Session.flush s db).2.2.log
      = db.log ++ [.updateCall (deletionRecs s.deleted),
         .updateCall updates]
  ∧ [("_id", Val.str id), ("_rev", Val.str rev), ("_deleted", Val.bool true)]
      ∈ deletionRecs s.deleted
  ∧ ∃ u ∈ updates, docId u = some id := by
  refine ⟨?_, ?_, ?_⟩
  · rw [flush_unfold s db updates hsnap hnofail hevict]
    rcases hW : writeRevs (applyRecs
        (applyRecs db.docs db.nextRev (deletionRecs s.deleted)).1
        (applyRecs db.docs db.nextRev (deletionRecs s.deleted)).2.1 updates).2.2
        { s with cache := (evictDeleted s.deleted s.created s.cache).2,
                 deleted := [] } with ⟨wb, s2⟩
    cases wb <;> simp [hW]
  · exact List.mem_map_of_mem _ (assocFind_mem _ _ _ hdel)
  · have hmem : id ∈ s.created ++ s.changed := by
      rcases hid with h | h
      · exact List.mem_append_left _ h
      · exact List.mem_append_right _ h
    obtain ⟨r, d, hc, hh⟩ :=
      snapshotAll_tracked s (s.created ++ s.changed) updates hsnap id hmem
    have hdid : docId d = some id := by
      have hx := hwfm (id, r) (assocFind_mem _ _ _ hc)
      rw [show ((id, r) : String × Nat).2 = r from rfl, hh] at hx
      simpa using hx
    exact ⟨d, snapshot_mem_of_id s (s.created ++ s.changed) updates hsnap
      id r d hmem hc hh, hdid⟩

/-- Witness for `flush_two_phase_no_reject` on the concrete
delete-then-recreate state. -/
theorem flush_two_phase_no_reject_witness :
    (Session.flush c8S c8Db).2.2.log
      = c8Db.log ++ [.updateCall (deletionRecs c8S.deleted),
         .updateCall [c8NewDoc]]
  ∧ [("_id", Val.str "x"), ("_rev", Val.str "r0"), ("_deleted", Val.bool true)]
      ∈ deletionRecs c8S.deleted
  ∧ ∃ u ∈ [c8NewDoc], docId u = some "x" :=
  flush_two_phase_no_reject c8S c8Db "x" "r0" [c8NewDoc]
    (by
      intro p hp
      rcases List.mem_singleton.mp hp with rfl
      rfl)
    rfl (fun _ => rfl) rfl rfl (Or.inl (List.mem_singleton.mpr rfl))

end CouchSession
